import Mathlib

/-!
# Verification of the quadratic Catalan solver

Shallow embedding of `quadratic_catalan_solver.py`.  Python floats are
modelled as exact rationals (`ℚ`); `math.sqrt` is modelled as an abstract
function `sq : ℚ → ℚ` (it is only ever applied to non-negative arguments by
the code, and theorems that depend on the value of a square root carry the
hypotheses `(sq d)^2 = d` and `0 ≤ sq d`).  Operations that can raise a
Python exception (`ValueError` from `_compute_exact_u`, `ZeroDivisionError`
from `/`) are modelled in the `Except PyError` monad; the `try/except
ValueError` block of `_solve_catalan_method` is modelled by matching on the
result and falling back to the standard formula exactly when the error is a
`ValueError`.
-/

namespace CatalanSolver

/-- Python exceptions that the embedded code can raise. -/
inductive PyError : Type
  | valueError : PyError
  | zeroDivisionError : PyError
deriving DecidableEq, Repr

/-- Python float division: raises `ZeroDivisionError` on a zero denominator. -/
def pydiv (x y : ℚ) : Except PyError ℚ :=
  if y = 0 then .error .zeroDivisionError else .ok (x / y)

/-- `QuadraticEquation`: the dataclass holding a, b, c of ax² + bx + c = 0. -/
structure QuadraticEquation where
  a : ℚ
  b : ℚ
  c : ℚ
deriving DecidableEq, Repr

/-- `Solution`: roots, method tag, optional term count and optional error. -/
structure Solution where
  roots : List ℚ
  method_used : String
  terms_used : Option ℕ := none
  error : Option ℚ := none
deriving DecidableEq, Repr

/-- `DEFAULT_TOLERANCE = 1e-10`. -/
def DEFAULT_TOLERANCE : ℚ := 1 / 10 ^ 10

/-- `MAX_TERMS = 100`. -/
def MAX_TERMS : ℕ := 100

/-- `ZERO_THRESHOLD = 1e-15`. -/
def ZERO_THRESHOLD : ℚ := 1 / 10 ^ 15

/-- `CATALAN_THRESHOLD = 0.25`. -/
def CATALAN_THRESHOLD : ℚ := 1 / 4

/-- The loop of `catalan_number`: `catalanLoop n i` is the value of `result`
after `i` iterations of `for i in range(n): result = result * (2*n - i) // (i + 1)`. -/
def catalanLoop (n : ℕ) : ℕ → ℕ
  | 0 => 1
  | i + 1 => catalanLoop n i * (2 * n - i) / (i + 1)

/-- `CatalanSolver.catalan_number`. -/
def catalan_number (n : ℕ) : ℕ :=
  if n = 0 then 1 else catalanLoop n n / (n + 1)

/-- Boolean check that each truncating division performed by the loop of
`catalan_number n` is exact up to step `i`. -/
def catalanLoopExact (n : ℕ) : ℕ → Bool
  | 0 => true
  | i + 1 => catalanLoopExact n i && (catalanLoop n i * (2 * n - i) % (i + 1) == 0)

/-- Boolean check that every truncating division performed by
`catalan_number n` (the loop steps and the final division by `n+1`) is exact. -/
def catalanDivisionsExact (n : ℕ) : Bool :=
  catalanLoopExact n n && (catalanLoop n n % (n + 1) == 0)

/-- `CatalanSolver._is_zero`. -/
def is_zero (value : ℚ) : Prop := |value| < ZERO_THRESHOLD

instance (value : ℚ) : Decidable (is_zero value) := by
  unfold is_zero; infer_instance

/-- `CatalanSolver._solve_linear`. -/
def solve_linear (eq : QuadraticEquation) : Except PyError Solution :=
  if is_zero eq.b then
    if is_zero eq.c then .ok ⟨[], "Infinite solutions", none, none⟩
    else .ok ⟨[], "No solution", none, none⟩
  else do
    let root ← pydiv (-eq.c) eq.b
    return ⟨[root], "Linear", none, none⟩

/-- `CatalanSolver._solve_missing_c`. -/
def solve_missing_c (eq : QuadraticEquation) : Except PyError Solution := do
  let root2 ← pydiv (-eq.b) eq.a
  return ⟨[0, root2], "Factorization (c=0)", none, none⟩

/-- `CatalanSolver._solve_missing_b`; `sq` models `math.sqrt`. -/
def solve_missing_b (sq : ℚ → ℚ) (eq : QuadraticEquation) : Except PyError Solution := do
  let discriminant ← pydiv (-eq.c) eq.a
  if discriminant < 0 then return ⟨[], "No real solutions", none, none⟩
  else
    let sqrt_disc := sq discriminant
    return ⟨[sqrt_disc, -sqrt_disc], "Direct root (b=0)", none, none⟩

/-- `CatalanSolver._solve_standard_formula`; `sq` models `math.sqrt`. -/
def solve_standard_formula (sq : ℚ → ℚ) (eq : QuadraticEquation) : Except PyError Solution :=
  let discriminant := eq.b ^ 2 - 4 * eq.a * eq.c
  if discriminant < 0 then .ok ⟨[], "No real solutions", none, none⟩
  else do
    let sqrt_disc := sq discriminant
    let denominator := 2 * eq.a
    let root1 ← pydiv (-eq.b + sqrt_disc) denominator
    let root2 ← pydiv (-eq.b - sqrt_disc) denominator
    return ⟨[root1, root2], "Quadratic formula", none, none⟩

/-- `CatalanSolver._compute_catalan_parameter`: `A = ac/b²`. -/
def compute_catalan_parameter (eq : QuadraticEquation) : Except PyError ℚ :=
  pydiv (eq.a * eq.c) (eq.b ^ 2)

/-- `CatalanSolver._compute_exact_u`: `u = (1 - √(1-4A))/(2A)`, raising
`ValueError` when `1 - 4A < 0`. -/
def compute_exact_u (sq : ℚ → ℚ) (A : ℚ) : Except PyError ℚ :=
  if is_zero A then .ok 1
  else
    let discriminant := 1 - 4 * A
    if discriminant < 0 then .error .valueError
    else pydiv (1 - sq discriminant) (2 * A)

/-- The `while` loop of `_compute_catalan_series`, recursing on the fuel
`MAX_TERMS - n`: state is the running index `n` and partial sum `u_series`. -/
def catalanSeriesGo (tol A u_exact : ℚ) : ℕ → ℕ → ℚ → ℚ × ℕ
  | 0, _, u_series => (u_series, MAX_TERMS)
  | fuel + 1, n, u_series =>
    let term : ℚ := (catalan_number n : ℚ) * A ^ n
    let u_series' := u_series + term
    if |u_series' - u_exact| < tol then (u_series', n + 1)
    else catalanSeriesGo tol A u_exact fuel (n + 1) u_series'

/-- `CatalanSolver._compute_catalan_series` (tolerance passed explicitly). -/
def compute_catalan_series (tol A u_exact : ℚ) : ℚ × ℕ :=
  catalanSeriesGo tol A u_exact MAX_TERMS 0 0

/-- `CatalanSolver._solve_catalan_method`.  The `try` block is the inner
`do`-block; a `ValueError` from it falls back to the standard formula, any
other exception propagates. -/
def solve_catalan_method (tol : ℚ) (sq : ℚ → ℚ) (eq : QuadraticEquation) :
    Except PyError Solution := do
  let A ← compute_catalan_parameter eq
  if |A| > CATALAN_THRESHOLD then solve_standard_formula sq eq
  else
    let attempt : Except PyError Solution := do
      let u_exact ← compute_exact_u sq A
      let (u_series, terms_used) := compute_catalan_series tol A u_exact
      let cOverB ← pydiv eq.c eq.b
      let x1 := -cOverB * u_series
      let x2 ← pydiv eq.c (eq.a * x1)
      let final_error := |u_series - u_exact|
      return ⟨[x1, x2], "Catalan series", some terms_used, some final_error⟩
    match attempt with
    | .error .valueError => solve_standard_formula sq eq
    | .error e => .error e
    | .ok sol => .ok sol

/-- `CatalanSolver.solve` (the `verbose` printing is presentation only). -/
def solve (tol : ℚ) (sq : ℚ → ℚ) (eq : QuadraticEquation) : Except PyError Solution :=
  if is_zero eq.a then solve_linear eq
  else if is_zero eq.c then solve_missing_c eq
  else if is_zero eq.b then solve_missing_b sq eq
  else do
    let A ← compute_catalan_parameter eq
    if |A| ≤ CATALAN_THRESHOLD then solve_catalan_method tol sq eq
    else solve_standard_formula sq eq

/-- The partial sum `Σ_{k<m} C(k)·Aᵏ` accumulated by the series loop. -/
def partialSum (A : ℚ) (m : ℕ) : ℚ :=
  ∑ k ∈ Finset.range m, (catalan_number k : ℚ) * A ^ k

/-- The residual of substituting `x` back into `ax² + bx + c`. -/
def residual (eq : QuadraticEquation) (x : ℚ) : ℚ :=
  eq.a * x ^ 2 + eq.b * x + eq.c

/-- Method tag of a solve outcome (the sentinel `"raised"` marks an
uncaught exception, which never occurs). -/
def solveMethod (tol : ℚ) (sq : ℚ → ℚ) (eq : QuadraticEquation) : String :=
  match solve tol sq eq with
  | .ok s => s.method_used
  | .error _ => "raised"

/-- Root list of a solve outcome (empty if an exception escaped). -/
def solveRoots (tol : ℚ) (sq : ℚ → ℚ) (eq : QuadraticEquation) : List ℚ :=
  match solve tol sq eq with
  | .ok s => s.roots
  | .error _ => []

/-- Iteration count of a solve outcome (`MAX_TERMS` when absent). -/
def solveTerms (tol : ℚ) (sq : ℚ → ℚ) (eq : QuadraticEquation) : ℕ :=
  match solve tol sq eq with
  | .ok s => s.terms_used.getD MAX_TERMS
  | .error _ => MAX_TERMS

/-- Reported error of a solve outcome (`0` when absent). -/
def solveError (tol : ℚ) (sq : ℚ → ℚ) (eq : QuadraticEquation) : ℚ :=
  match solve tol sq eq with
  | .ok s => s.error.getD 0
  | .error _ => 0

/-- `true` exactly when `solve` returns a `Solution` record rather than
letting an exception escape to the caller. -/
def solveReturns (tol : ℚ) (sq : ℚ → ℚ) (eq : QuadraticEquation) : Bool :=
  match solve tol sq eq with
  | .ok _ => true
  | .error _ => false

end CatalanSolver

namespace CatalanSolver

/-! ## Evaluation helpers -/

lemma bind_ok {α β : Type} (x : α) (f : α → Except PyError β) :
    (Except.ok x : Except PyError α) >>= f = f x := rfl

lemma bind_err {α β : Type} (e : PyError) (f : α → Except PyError β) :
    (Except.error e : Except PyError α) >>= f = .error e := rfl

lemma pure_eq_ok {α : Type} (x : α) : (pure x : Except PyError α) = .ok x := rfl

lemma seriesGo_stop (tol A u : ℚ) (fuel n : ℕ) (s : ℚ) (hf : fuel ≠ 0)
    (h : |s + (catalan_number n : ℚ) * A ^ n - u| < tol) :
    catalanSeriesGo tol A u fuel n s = (s + (catalan_number n : ℚ) * A ^ n, n + 1) := by
  cases fuel with
  | zero => exact absurd rfl hf
  | succ f => simp only [catalanSeriesGo, if_pos h]

lemma seriesGo_step (tol A u : ℚ) (fuel n : ℕ) (s : ℚ) (hf : fuel ≠ 0)
    (h : ¬ |s + (catalan_number n : ℚ) * A ^ n - u| < tol) :
    catalanSeriesGo tol A u fuel n s =
      catalanSeriesGo tol A u (fuel - 1) (n + 1) (s + (catalan_number n : ℚ) * A ^ n) := by
  cases fuel with
  | zero => exact absurd rfl hf
  | succ f => simp only [catalanSeriesGo, if_neg h, Nat.add_sub_cancel]

lemma cn0 : catalan_number 0 = 1 := by decide
lemma cn1 : catalan_number 1 = 1 := by decide
lemma cn2 : catalan_number 2 = 2 := by decide
lemma cn3 : catalan_number 3 = 5 := by decide
lemma cn4 : catalan_number 4 = 14 := by decide
lemma cn5 : catalan_number 5 = 42 := by decide
lemma cn6 : catalan_number 6 = 132 := by decide
lemma cn7 : catalan_number 7 = 429 := by decide
lemma cn8 : catalan_number 8 = 1430 := by decide
lemma cn9 : catalan_number 9 = 4862 := by decide
lemma cn10 : catalan_number 10 = 16796 := by decide
lemma cn11 : catalan_number 11 = 58786 := by decide
lemma cn12 : catalan_number 12 = 208012 := by decide
lemma cn13 : catalan_number 13 = 742900 := by decide
lemma cn14 : catalan_number 14 = 2674440 := by decide
lemma cn15 : catalan_number 15 = 9694845 := by decide
lemma cn16 : catalan_number 16 = 35357670 := by decide
lemma cn17 : catalan_number 17 = 129644790 := by decide
lemma cn18 : catalan_number 18 = 477638700 := by decide
lemma cn19 : catalan_number 19 = 1767263190 := by decide

/-! ## The loop of `catalan_number` computes binomial coefficients exactly -/

lemma catalanLoop_eq_choose (n : ℕ) : ∀ i, catalanLoop n i = (2 * n).choose i := by
  intro i
  induction i with
  | zero => simp [catalanLoop]
  | succ j ih =>
    have key := Nat.choose_succ_right_eq (2 * n) j
    rw [catalanLoop, ih, ← key, Nat.mul_div_cancel _ (Nat.succ_pos j)]

lemma catalan_number_eq_catalan (n : ℕ) : catalan_number n = catalan n := by
  rcases Nat.eq_zero_or_pos n with h | h
  · subst h; simp [catalan_number]
  · rw [catalan_number, if_neg (Nat.pos_iff_ne_zero.mp h), catalanLoop_eq_choose,
      catalan_eq_centralBinom_div, Nat.centralBinom]

lemma succ_mul_catalan_number (n : ℕ) :
    (n + 1) * catalan_number n = (2 * n).choose n := by
  rw [catalan_number_eq_catalan, catalan_eq_centralBinom_div,
    Nat.mul_div_cancel' (Nat.succ_dvd_centralBinom n), Nat.centralBinom]

lemma catalanLoopExact_true (n : ℕ) : ∀ i, catalanLoopExact n i = true := by
  intro i
  induction i with
  | zero => rfl
  | succ j ih =>
    have key := Nat.choose_succ_right_eq (2 * n) j
    simp only [catalanLoopExact, ih, Bool.true_and, beq_iff_eq, catalanLoop_eq_choose,
      ← key, Nat.mul_mod_left]

lemma catalanDivisionsExact_true (n : ℕ) : catalanDivisionsExact n = true := by
  have hdvd : (n + 1) ∣ (2 * n).choose n := by
    have h := Nat.succ_dvd_centralBinom n
    rwa [Nat.centralBinom] at h
  obtain ⟨k, hk⟩ := hdvd
  simp only [catalanDivisionsExact, catalanLoopExact_true, Bool.true_and, beq_iff_eq,
    catalanLoop_eq_choose, hk, Nat.mul_mod_right]

end CatalanSolver

namespace CatalanSolver

/-! ## Bounds on the Catalan series partial sums -/

lemma catalan_ratio (n : ℕ) :
    (catalan_number (n + 1) : ℚ) ≤ 4 * (catalan_number n : ℚ) := by
  have h1n : (n + 2) * catalan_number (n + 1) = Nat.centralBinom (n + 1) := by
    have h := succ_mul_catalan_number (n + 1)
    rwa [← Nat.centralBinom] at h
  have h3n : (n + 1) * catalan_number n = Nat.centralBinom n := by
    have h := succ_mul_catalan_number n
    rwa [← Nat.centralBinom] at h
  have h1 : ((n : ℚ) + 2) * (catalan_number (n + 1) : ℚ) =
      (Nat.centralBinom (n + 1) : ℚ) := by exact_mod_cast h1n
  have h2 : ((n : ℚ) + 1) * (Nat.centralBinom (n + 1) : ℚ) =
      2 * (2 * (n : ℚ) + 1) * (Nat.centralBinom n : ℚ) := by
    exact_mod_cast Nat.succ_mul_centralBinom_succ n
  have h3 : ((n : ℚ) + 1) * (catalan_number n : ℚ) = (Nat.centralBinom n : ℚ) := by
    exact_mod_cast h3n
  have hn1 : ((n : ℚ) + 1) ≠ 0 := by positivity
  have hx : ((n : ℚ) + 2) * (catalan_number (n + 1) : ℚ) =
      2 * (2 * (n : ℚ) + 1) * (catalan_number n : ℚ) := by
    apply mul_left_cancel₀ hn1
    linear_combination ((n : ℚ) + 1) * h1 + h2 - 2 * (2 * (n : ℚ) + 1) * h3
  have hy : (0 : ℚ) ≤ (catalan_number n : ℚ) := Nat.cast_nonneg _
  have hkey : (4 * (catalan_number n : ℚ) - (catalan_number (n + 1) : ℚ)) * ((n : ℚ) + 2) =
      6 * (catalan_number n : ℚ) := by linear_combination (-1 : ℚ) * hx
  nlinarith [hkey, hy]

lemma pair_nonneg {A : ℚ} (hA : |A| ≤ 1 / 4) (k : ℕ) :
    0 ≤ (catalan_number (2 * k) : ℚ) * A ^ (2 * k) +
      (catalan_number (2 * k + 1) : ℚ) * A ^ (2 * k + 1) := by
  have hev : (0 : ℚ) ≤ A ^ (2 * k) := by
    rw [pow_mul]; exact pow_nonneg (sq_nonneg A) k
  have hC : (0 : ℚ) ≤ (catalan_number (2 * k + 1) : ℚ) := Nat.cast_nonneg _
  have hr : (catalan_number (2 * k + 1) : ℚ) ≤ 4 * (catalan_number (2 * k) : ℚ) :=
    catalan_ratio (2 * k)
  have hfac : 0 ≤ (catalan_number (2 * k) : ℚ) + (catalan_number (2 * k + 1) : ℚ) * A := by
    have f1 := mul_le_mul_of_nonneg_left (neg_abs_le A) hC
    have f2 := mul_le_mul_of_nonneg_left hA hC
    nlinarith [f1, f2, hr]
  calc (0 : ℚ) ≤ A ^ (2 * k) *
        ((catalan_number (2 * k) : ℚ) + (catalan_number (2 * k + 1) : ℚ) * A) :=
        mul_nonneg hev hfac
    _ = (catalan_number (2 * k) : ℚ) * A ^ (2 * k) +
        (catalan_number (2 * k + 1) : ℚ) * A ^ (2 * k + 1) := by ring

lemma partialSum_zero (A : ℚ) : partialSum A 0 = 0 := by
  simp [partialSum]

lemma partialSum_succ (A : ℚ) (m : ℕ) :
    partialSum A (m + 1) = partialSum A m + (catalan_number m : ℚ) * A ^ m := by
  simp [partialSum, Finset.sum_range_succ]

lemma partialSum_two (A : ℚ) : partialSum A 2 = 1 + A := by
  simp [partialSum, Finset.sum_range_succ, cn0, cn1]

lemma partialSum_even_ge {A : ℚ} (hA : |A| ≤ 1 / 4) :
    ∀ k, 1 + A ≤ partialSum A (2 * k + 2) := by
  intro k
  induction k with
  | zero => rw [show 2 * 0 + 2 = 2 from rfl, partialSum_two]
  | succ j ih =>
    have hstep : 2 * (j + 1) + 2 = (2 * (j + 1)) + 1 + 1 := by ring
    have hpair := pair_nonneg hA (j + 1)
    rw [hstep, partialSum_succ, partialSum_succ]
    have h1 : 2 * (j + 1) = 2 * j + 2 := by ring
    rw [show 2 * (j + 1) + 1 = 2 * (j + 1) + 1 from rfl]
    calc 1 + A ≤ partialSum A (2 * j + 2) := ih
      _ ≤ partialSum A (2 * j + 2) + ((catalan_number (2 * (j + 1)) : ℚ) * A ^ (2 * (j + 1)) +
          (catalan_number (2 * (j + 1) + 1) : ℚ) * A ^ (2 * (j + 1) + 1)) := by linarith
      _ = partialSum A (2 * (j + 1)) + (catalan_number (2 * (j + 1)) : ℚ) * A ^ (2 * (j + 1)) +
          (catalan_number (2 * (j + 1) + 1) : ℚ) * A ^ (2 * (j + 1) + 1) := by
          rw [h1]; ring

lemma partialSum_ge {A : ℚ} (hA : |A| ≤ 1 / 4) {m : ℕ} (hm : 1 ≤ m) :
    1 - |A| ≤ partialSum A m := by
  have habs : 0 ≤ |A| := abs_nonneg A
  have hAlb : -|A| ≤ A := neg_abs_le A
  rcases Nat.even_or_odd m with ⟨k, hk⟩ | ⟨k, hk⟩
  · have hk1 : 1 ≤ k := by omega
    have hm2 : m = 2 * (k - 1) + 2 := by omega
    have := partialSum_even_ge hA (k - 1)
    rw [hm2]; linarith
  · rcases Nat.eq_zero_or_pos k with hk0 | hkpos
    · have hm1 : m = 1 := by omega
      subst hm1
      have : partialSum A 1 = 1 := by simp [partialSum, cn0]
      rw [this]; linarith
    · have hm2 : m = 2 * (k - 1) + 2 + 1 := by omega
      have h1 := partialSum_even_ge hA (k - 1)
      have h2 : (0 : ℚ) ≤ (catalan_number (2 * (k - 1) + 2) : ℚ) * A ^ (2 * (k - 1) + 2) := by
        apply mul_nonneg (Nat.cast_nonneg _)
        rw [show 2 * (k - 1) + 2 = 2 * (k - 1 + 1) from by ring, pow_mul]
        exact pow_nonneg (sq_nonneg A) _
      rw [hm2, partialSum_succ]
      linarith

lemma partialSum_quarter (m : ℕ) :
    partialSum (1 / 4) m + 2 * (Nat.centralBinom m : ℚ) / 4 ^ m = 2 := by
  induction m with
  | zero => simp [partialSum_zero]
  | succ j ih =>
    have hc : ((j : ℚ) + 1) * (catalan_number j : ℚ) = (Nat.centralBinom j : ℚ) := by
      have h := succ_mul_catalan_number j
      rw [← Nat.centralBinom] at h
      exact_mod_cast congrArg (Nat.cast (R := ℚ)) h
    have hb : ((j : ℚ) + 1) * (Nat.centralBinom (j + 1) : ℚ) =
        2 * (2 * j + 1) * (Nat.centralBinom j : ℚ) := by
      exact_mod_cast congrArg (Nat.cast (R := ℚ)) (Nat.succ_mul_centralBinom_succ j)
    have hj1 : ((j : ℚ) + 1) ≠ 0 := by positivity
    have key : 2 * (catalan_number j : ℚ) + (Nat.centralBinom (j + 1) : ℚ) =
        4 * (Nat.centralBinom j : ℚ) := by
      apply mul_left_cancel₀ hj1
      linear_combination 2 * hc + hb
    have hP : ((1 : ℚ) / 4) ^ j = 1 / 4 ^ j := by rw [div_pow, one_pow]
    rw [partialSum_succ, hP, pow_succ]
    linear_combination ih + (1 / (2 * (4 : ℚ) ^ j)) * key

lemma partialSum_le_two {A : ℚ} (hA : |A| ≤ 1 / 4) (m : ℕ) : partialSum A m ≤ 2 := by
  have h1 : partialSum A m ≤ partialSum (1 / 4) m := by
    unfold partialSum
    apply Finset.sum_le_sum
    intro k _
    have hterm : A ^ k ≤ (1 / 4 : ℚ) ^ k := by
      calc A ^ k ≤ |A ^ k| := le_abs_self _
        _ = |A| ^ k := abs_pow A k
        _ ≤ (1 / 4 : ℚ) ^ k := pow_le_pow_left₀ (abs_nonneg A) hA k
    exact mul_le_mul_of_nonneg_left hterm (Nat.cast_nonneg _)
  have h2 := partialSum_quarter m
  have h3 : 0 ≤ 2 * (Nat.centralBinom m : ℚ) / 4 ^ m := by positivity
  linarith

/-! ## Properties of the series loop -/

lemma seriesGo_partialSum (tol A u : ℚ) :
    ∀ fuel n, fuel ≠ 0 → ∃ m, n < m ∧
      (catalanSeriesGo tol A u fuel n (partialSum A n)).1 = partialSum A m := by
  intro fuel
  induction fuel with
  | zero => intro n h; exact absurd rfl h
  | succ f ih =>
    intro n _
    simp only [catalanSeriesGo]
    split
    · exact ⟨n + 1, Nat.lt_succ_self n, by rw [partialSum_succ]⟩
    · rw [← partialSum_succ]
      rcases Nat.eq_zero_or_pos f with hf0 | hfpos
      · subst hf0
        exact ⟨n + 1, Nat.lt_succ_self n, rfl⟩
      · obtain ⟨m, hm, heq⟩ := ih (n + 1) (Nat.pos_iff_ne_zero.mp hfpos)
        exact ⟨m, by omega, heq⟩

lemma series_fst_partialSum (tol A u : ℚ) :
    ∃ m, 1 ≤ m ∧ (compute_catalan_series tol A u).1 = partialSum A m := by
  have h0 : partialSum A 0 = 0 := partialSum_zero A
  obtain ⟨m, hm, heq⟩ := seriesGo_partialSum tol A u MAX_TERMS 0 (by decide)
  refine ⟨m, hm, ?_⟩
  rw [compute_catalan_series, ← h0, heq]

lemma series_fst_ge {A : ℚ} (hA : |A| ≤ 1 / 4) (tol u : ℚ) :
    1 - |A| ≤ (compute_catalan_series tol A u).1 := by
  obtain ⟨m, hm, heq⟩ := series_fst_partialSum tol A u
  rw [heq]
  exact partialSum_ge hA hm

lemma series_fst_ge_three_quarters {A : ℚ} (hA : |A| ≤ 1 / 4) (tol u : ℚ) :
    3 / 4 ≤ (compute_catalan_series tol A u).1 := by
  have h := series_fst_ge hA tol u
  have : |A| ≤ 1 / 4 := hA
  linarith

lemma series_fst_le_two {A : ℚ} (hA : |A| ≤ 1 / 4) (tol u : ℚ) :
    (compute_catalan_series tol A u).1 ≤ 2 := by
  obtain ⟨m, _, heq⟩ := series_fst_partialSum tol A u
  rw [heq]
  exact partialSum_le_two hA m

lemma seriesGo_converged (tol A u : ℚ) :
    ∀ fuel n s, (catalanSeriesGo tol A u fuel n s).2 < MAX_TERMS →
      |(catalanSeriesGo tol A u fuel n s).1 - u| < tol := by
  intro fuel
  induction fuel with
  | zero => intro n s h; exact absurd h (lt_irrefl _)
  | succ f ih =>
    intro n s
    simp only [catalanSeriesGo]
    split
    · intro _; assumption
    · exact ih (n + 1) _

lemma series_converged (tol A u : ℚ)
    (h : (compute_catalan_series tol A u).2 < MAX_TERMS) :
    |(compute_catalan_series tol A u).1 - u| < tol :=
  seriesGo_converged tol A u MAX_TERMS 0 0 h

end CatalanSolver

namespace CatalanSolver

/-! ## Basic facts about the guards -/

lemma not_is_zero_ne {x : ℚ} (h : ¬ is_zero x) : x ≠ 0 := by
  intro h0
  apply h
  rw [h0]
  show |(0 : ℚ)| < ZERO_THRESHOLD
  rw [ZERO_THRESHOLD]
  norm_num

lemma pydiv_ok (x : ℚ) {y : ℚ} (hy : y ≠ 0) : pydiv x y = .ok (x / y) := by
  simp [pydiv, hy]

lemma CATALAN_THRESHOLD_eq : CATALAN_THRESHOLD = 1 / 4 := rfl

lemma solveMethod_eq {tol : ℚ} {sq : ℚ → ℚ} {eq : QuadraticEquation} {s : Solution}
    (h : solve tol sq eq = .ok s) : solveMethod tol sq eq = s.method_used := by
  unfold solveMethod
  rw [h]

lemma solveRoots_eq {tol : ℚ} {sq : ℚ → ℚ} {eq : QuadraticEquation} {s : Solution}
    (h : solve tol sq eq = .ok s) : solveRoots tol sq eq = s.roots := by
  unfold solveRoots
  rw [h]

lemma solveTerms_eq {tol : ℚ} {sq : ℚ → ℚ} {eq : QuadraticEquation} {s : Solution}
    (h : solve tol sq eq = .ok s) : solveTerms tol sq eq = s.terms_used.getD MAX_TERMS := by
  unfold solveTerms
  rw [h]

lemma solveError_eq {tol : ℚ} {sq : ℚ → ℚ} {eq : QuadraticEquation} {s : Solution}
    (h : solve tol sq eq = .ok s) : solveError tol sq eq = s.error.getD 0 := by
  unfold solveError
  rw [h]

lemma solveReturns_eq {tol : ℚ} {sq : ℚ → ℚ} {eq : QuadraticEquation} {s : Solution}
    (h : solve tol sq eq = .ok s) : solveReturns tol sq eq = true := by
  unfold solveReturns
  rw [h]

/-! ## Per-branch shapes of the dispatch -/

lemma solve_linear_shape {eq : QuadraticEquation} {s : Solution}
    (h : solve_linear eq = .ok s) :
    s.method_used ≠ "Catalan series" ∧ s.terms_used = none ∧ s.error = none := by
  by_cases hb : is_zero eq.b
  · by_cases hc : is_zero eq.c
    · rw [solve_linear, if_pos hb, if_pos hc] at h
      injection h with h'
      subst h'
      exact ⟨show "Infinite solutions" ≠ "Catalan series" from by decide, rfl, rfl⟩
    · rw [solve_linear, if_pos hb, if_neg hc] at h
      injection h with h'
      subst h'
      exact ⟨show "No solution" ≠ "Catalan series" from by decide, rfl, rfl⟩
  · rw [solve_linear, if_neg hb] at h
    rw [show pydiv (-eq.c) eq.b = .ok (-eq.c / eq.b) from pydiv_ok _ (not_is_zero_ne hb)] at h
    rw [bind_ok, pure_eq_ok] at h
    injection h with h'
    subst h'
    exact ⟨show "Linear" ≠ "Catalan series" from by decide, rfl, rfl⟩

lemma solve_missing_c_shape {eq : QuadraticEquation} {s : Solution}
    (ha : ¬ is_zero eq.a) (h : solve_missing_c eq = .ok s) :
    s.method_used ≠ "Catalan series" ∧ s.terms_used = none ∧ s.error = none := by
  rw [solve_missing_c,
    show pydiv (-eq.b) eq.a = .ok (-eq.b / eq.a) from pydiv_ok _ (not_is_zero_ne ha),
    bind_ok, pure_eq_ok] at h
  injection h with h'
  subst h'
  exact ⟨show "Factorization (c=0)" ≠ "Catalan series" from by decide, rfl, rfl⟩

lemma solve_missing_b_shape {sq : ℚ → ℚ} {eq : QuadraticEquation} {s : Solution}
    (ha : ¬ is_zero eq.a) (h : solve_missing_b sq eq = .ok s) :
    s.method_used ≠ "Catalan series" ∧ s.terms_used = none ∧ s.error = none := by
  rw [solve_missing_b,
    show pydiv (-eq.c) eq.a = .ok (-eq.c / eq.a) from pydiv_ok _ (not_is_zero_ne ha),
    bind_ok] at h
  by_cases hd : -eq.c / eq.a < 0
  · rw [if_pos hd, pure_eq_ok] at h
    injection h with h'
    subst h'
    exact ⟨show "No real solutions" ≠ "Catalan series" from by decide, rfl, rfl⟩
  · rw [if_neg hd, pure_eq_ok] at h
    injection h with h'
    subst h'
    exact ⟨show "Direct root (b=0)" ≠ "Catalan series" from by decide, rfl, rfl⟩

lemma solve_standard_formula_shape {sq : ℚ → ℚ} {eq : QuadraticEquation} {s : Solution}
    (ha : ¬ is_zero eq.a) (h : solve_standard_formula sq eq = .ok s) :
    s.method_used ≠ "Catalan series" ∧ s.terms_used = none ∧ s.error = none := by
  have ha2 : 2 * eq.a ≠ 0 := mul_ne_zero two_ne_zero (not_is_zero_ne ha)
  rw [solve_standard_formula] at h
  by_cases hd : eq.b ^ 2 - 4 * eq.a * eq.c < 0
  · rw [if_pos hd] at h
    injection h with h'
    subst h'
    exact ⟨show "No real solutions" ≠ "Catalan series" from by decide, rfl, rfl⟩
  · rw [if_neg hd] at h
    simp only [pydiv_ok _ ha2, bind_ok, pure_eq_ok] at h
    injection h with h'
    subst h'
    exact ⟨show "Quadratic formula" ≠ "Catalan series" from by decide, rfl, rfl⟩

/-- Full case analysis of a successful `solve`: either the Catalan series
branch produced the record (and then the iteration count and the error are
exactly those of `compute_catalan_series`), or the record came from another
branch and both optional fields are `none`. -/
lemma solve_ok_cases (tol : ℚ) (sq : ℚ → ℚ) (eq : QuadraticEquation) (s : Solution)
    (h : solve tol sq eq = .ok s) :
    (∃ u S T, compute_exact_u sq (eq.a * eq.c / eq.b ^ 2) = .ok u ∧
        compute_catalan_series tol (eq.a * eq.c / eq.b ^ 2) u = (S, T) ∧
        s.method_used = "Catalan series" ∧ s.terms_used = some T ∧ s.error = some |S - u|) ∨
    (s.method_used ≠ "Catalan series" ∧ s.terms_used = none ∧ s.error = none) := by
  rw [solve] at h
  by_cases h1 : is_zero eq.a
  · rw [if_pos h1] at h
    exact Or.inr (solve_linear_shape h)
  · rw [if_neg h1] at h
    by_cases h2 : is_zero eq.c
    · rw [if_pos h2] at h
      exact Or.inr (solve_missing_c_shape h1 h)
    · rw [if_neg h2] at h
      by_cases h3 : is_zero eq.b
      · rw [if_pos h3] at h
        exact Or.inr (solve_missing_b_shape h1 h)
      · rw [if_neg h3] at h
        have hb2 : eq.b ^ 2 ≠ 0 := pow_ne_zero _ (not_is_zero_ne h3)
        rw [compute_catalan_parameter, pydiv_ok _ hb2, bind_ok] at h
        by_cases hA : |eq.a * eq.c / eq.b ^ 2| ≤ CATALAN_THRESHOLD
        · rw [if_pos hA, solve_catalan_method, compute_catalan_parameter,
            pydiv_ok _ hb2, bind_ok, if_neg (not_lt.mpr hA)] at h
          rcases hue : compute_exact_u sq (eq.a * eq.c / eq.b ^ 2) with e | u
          · rw [hue, bind_err] at h
            cases e with
            | valueError => exact Or.inr (solve_standard_formula_shape h1 h)
            | zeroDivisionError => exact Except.noConfusion h
          · rw [hue, bind_ok] at h
            rcases hcs : compute_catalan_series tol (eq.a * eq.c / eq.b ^ 2) u with ⟨S, T⟩
            rw [hcs] at h
            simp only [show pydiv eq.c eq.b = .ok (eq.c / eq.b) from
              pydiv_ok _ (not_is_zero_ne h3), bind_ok] at h
            by_cases hx0 : eq.a * (-(eq.c / eq.b) * S) = 0
            · simp only [pydiv, if_pos hx0, bind_err] at h
              exact Except.noConfusion h
            · simp only [pydiv, if_neg hx0, bind_ok, pure_eq_ok] at h
              injection h with h'
              subst h'
              exact Or.inl ⟨u, S, T, rfl, hcs, rfl, rfl, rfl⟩
        · rw [if_neg hA] at h
          exact Or.inr (solve_standard_formula_shape h1 h)

end CatalanSolver

namespace CatalanSolver

/-! ## The Catalan branch always succeeds when the dispatch guard admits it -/

lemma compute_exact_u_ok (sq : ℚ → ℚ) {A : ℚ} (hA : |A| ≤ 1 / 4) :
    ∃ u, compute_exact_u sq A = .ok u := by
  by_cases hz : is_zero A
  · exact ⟨1, by rw [compute_exact_u, if_pos hz]⟩
  · have hd : ¬ (1 - 4 * A < 0) := by
      have := (abs_le.mp hA).2
      linarith
    have h2A : 2 * A ≠ 0 := mul_ne_zero two_ne_zero (not_is_zero_ne hz)
    refine ⟨(1 - sq (1 - 4 * A)) / (2 * A), ?_⟩
    simp only [compute_exact_u, if_neg hz, if_neg hd, pydiv_ok _ h2A]

/-- Properties of the exact reference value `u`: it lies in `(0, 2]` and it
is a root of `1 - u + A·u² = 0` up to a defect below `ZERO_THRESHOLD` (the
defect is nonzero only on the `is_zero A` shortcut, where `u = 1` exactly). -/
lemma exact_u_props (sq : ℚ → ℚ) {A u : ℚ} (hA : |A| ≤ 1 / 4)
    (hs2 : sq (1 - 4 * A) ^ 2 = 1 - 4 * A) (hs0 : 0 ≤ sq (1 - 4 * A))
    (hu : compute_exact_u sq A = .ok u) :
    0 < u ∧ u ≤ 2 ∧ |A * u ^ 2 - u + 1| ≤ ZERO_THRESHOLD := by
  by_cases hz : is_zero A
  · rw [compute_exact_u, if_pos hz] at hu
    injection hu with hu'
    subst hu'
    have hzlt : |A| < ZERO_THRESHOLD := hz
    refine ⟨one_pos, one_le_two, ?_⟩
    have : A * 1 ^ 2 - 1 + 1 = A := by ring
    rw [this]
    exact le_of_lt hzlt
  · have hd : ¬ (1 - 4 * A < 0) := by
      have := (abs_le.mp hA).2
      linarith
    have hzA : A ≠ 0 := not_is_zero_ne hz
    have h2A : 2 * A ≠ 0 := mul_ne_zero two_ne_zero hzA
    simp only [compute_exact_u, if_neg hz, if_neg hd, pydiv_ok _ h2A] at hu
    injection hu with hu'
    have hkey : u * (1 + sq (1 - 4 * A)) = 2 := by
      rw [← hu']
      field_simp
      linear_combination -hs2
    have h1s : (0 : ℚ) < 1 + sq (1 - 4 * A) := by linarith
    have hupos : 0 < u := by nlinarith [hkey, h1s]
    have hule : u ≤ 2 := by nlinarith [hkey, h1s, hs0]
    refine ⟨hupos, hule, ?_⟩
    have hdefect : A * u ^ 2 - u + 1 = 0 := by
      rw [← hu']
      field_simp
      linear_combination (2 * A ^ 2 : ℚ) * hs2
    rw [hdefect]
    rw [ZERO_THRESHOLD]
    norm_num

/-- Successful run of the Catalan series branch: under the dispatch guards
the solver returns exactly the record built from the series partial sum. -/
lemma solve_catalan_spec (tol : ℚ) (sq : ℚ → ℚ) (eq : QuadraticEquation)
    (ha : ¬ is_zero eq.a) (hc : ¬ is_zero eq.c) (hb : ¬ is_zero eq.b)
    (hA : |eq.a * eq.c / eq.b ^ 2| ≤ CATALAN_THRESHOLD) :
    ∃ u S T, compute_exact_u sq (eq.a * eq.c / eq.b ^ 2) = .ok u ∧
      compute_catalan_series tol (eq.a * eq.c / eq.b ^ 2) u = (S, T) ∧
      3 / 4 ≤ S ∧ S ≤ 2 ∧ -(eq.c / eq.b) * S ≠ 0 ∧
      solve tol sq eq = .ok ⟨[-(eq.c / eq.b) * S, eq.c / (eq.a * (-(eq.c / eq.b) * S))],
        "Catalan series", some T, some |S - u|⟩ := by
  have hbne : eq.b ≠ 0 := not_is_zero_ne hb
  have hb2 : eq.b ^ 2 ≠ 0 := pow_ne_zero _ hbne
  have hA4 : |eq.a * eq.c / eq.b ^ 2| ≤ 1 / 4 := by rwa [CATALAN_THRESHOLD_eq] at hA
  obtain ⟨u, hu⟩ := compute_exact_u_ok sq hA4
  rcases hcs : compute_catalan_series tol (eq.a * eq.c / eq.b ^ 2) u with ⟨S, T⟩
  have hS34 : 3 / 4 ≤ S := by
    have := series_fst_ge_three_quarters hA4 tol u
    rwa [hcs] at this
  have hS2 : S ≤ 2 := by
    have := series_fst_le_two hA4 tol u
    rwa [hcs] at this
  have hSne : S ≠ 0 := by
    intro h0
    rw [h0] at hS34
    norm_num at hS34
  have hx1 : -(eq.c / eq.b) * S ≠ 0 :=
    mul_ne_zero (neg_ne_zero.mpr (div_ne_zero (not_is_zero_ne hc) hbne)) hSne
  have hx2 : eq.a * (-(eq.c / eq.b) * S) ≠ 0 := mul_ne_zero (not_is_zero_ne ha) hx1
  refine ⟨u, S, T, hu, hcs, hS34, hS2, hx1, ?_⟩
  rw [solve, if_neg ha, if_neg hc, if_neg hb, compute_catalan_parameter, pydiv_ok _ hb2,
    bind_ok, if_pos hA, solve_catalan_method, compute_catalan_parameter, pydiv_ok _ hb2,
    bind_ok, if_neg (not_lt.mpr hA), hu, bind_ok, hcs]
  simp only [pydiv, if_neg hbne, if_neg hx2, bind_ok, pure_eq_ok]

lemma solve_standard_formula_isOk (sq : ℚ → ℚ) {eq : QuadraticEquation}
    (ha : ¬ is_zero eq.a) : ∃ s, solve_standard_formula sq eq = .ok s := by
  have ha2 : 2 * eq.a ≠ 0 := mul_ne_zero two_ne_zero (not_is_zero_ne ha)
  by_cases hd : eq.b ^ 2 - 4 * eq.a * eq.c < 0
  · refine ⟨⟨[], "No real solutions", none, none⟩, ?_⟩
    simp only [solve_standard_formula, if_pos hd]
  · refine ⟨⟨[(-eq.b + sq (eq.b ^ 2 - 4 * eq.a * eq.c)) / (2 * eq.a),
      (-eq.b - sq (eq.b ^ 2 - 4 * eq.a * eq.c)) / (2 * eq.a)],
      "Quadratic formula", none, none⟩, ?_⟩
    simp only [solve_standard_formula, if_neg hd, pydiv_ok _ ha2, bind_ok, pure_eq_ok]

/-- `solve` never lets an exception escape: every run returns a record. -/
lemma solve_isOk (tol : ℚ) (sq : ℚ → ℚ) (eq : QuadraticEquation) :
    ∃ s, solve tol sq eq = .ok s := by
  by_cases h1 : is_zero eq.a
  · rw [solve, if_pos h1, solve_linear]
    by_cases h2 : is_zero eq.b
    · by_cases h3 : is_zero eq.c
      · refine ⟨⟨[], "Infinite solutions", none, none⟩, ?_⟩
        rw [if_pos h2, if_pos h3]
      · refine ⟨⟨[], "No solution", none, none⟩, ?_⟩
        rw [if_pos h2, if_neg h3]
    · refine ⟨⟨[-eq.c / eq.b], "Linear", none, none⟩, ?_⟩
      rw [if_neg h2, pydiv_ok _ (not_is_zero_ne h2), bind_ok, pure_eq_ok]
  · rw [solve, if_neg h1]
    by_cases h2 : is_zero eq.c
    · refine ⟨⟨[0, -eq.b / eq.a], "Factorization (c=0)", none, none⟩, ?_⟩
      rw [if_pos h2, solve_missing_c, pydiv_ok _ (not_is_zero_ne h1), bind_ok, pure_eq_ok]
    · rw [if_neg h2]
      by_cases h3 : is_zero eq.b
      · rw [if_pos h3, solve_missing_b, pydiv_ok _ (not_is_zero_ne h1), bind_ok]
        by_cases hd : -eq.c / eq.a < 0
        · refine ⟨⟨[], "No real solutions", none, none⟩, ?_⟩
          rw [if_pos hd, pure_eq_ok]
        · refine ⟨⟨[sq (-eq.c / eq.a), -sq (-eq.c / eq.a)], "Direct root (b=0)", none, none⟩, ?_⟩
          rw [if_neg hd, pure_eq_ok]
      · rw [if_neg h3]
        have hb2 : eq.b ^ 2 ≠ 0 := pow_ne_zero _ (not_is_zero_ne h3)
        rw [compute_catalan_parameter, pydiv_ok _ hb2, bind_ok]
        by_cases hA : |eq.a * eq.c / eq.b ^ 2| ≤ CATALAN_THRESHOLD
        · obtain ⟨u, S, T, _, _, _, _, _, hsol⟩ := solve_catalan_spec tol sq eq h1 h2 h3 hA
          rw [if_pos hA]
          rw [solve, if_neg h1, if_neg h2, if_neg h3, compute_catalan_parameter,
            pydiv_ok _ hb2, bind_ok, if_pos hA] at hsol
          exact ⟨_, hsol⟩
        · rw [if_neg hA]
          exact solve_standard_formula_isOk sq h1

end CatalanSolver

namespace CatalanSolver

/-! ## Residual identities and bounds for the series roots -/

lemma residual_x1_eq (eq : QuadraticEquation) (S u : ℚ) (hb : eq.b ≠ 0) :
    residual eq (-(eq.c / eq.b) * S) =
      eq.c * ((S - u) * (eq.a * eq.c / eq.b ^ 2 * (S + u) - 1) +
        (eq.a * eq.c / eq.b ^ 2 * u ^ 2 - u + 1)) := by
  rw [residual]
  field_simp
  ring

lemma residual_x2_eq (eq : QuadraticEquation) (S u : ℚ) (ha : eq.a ≠ 0) (hb : eq.b ≠ 0)
    (hc : eq.c ≠ 0) (hS : S ≠ 0) :
    residual eq (eq.c / (eq.a * (-(eq.c / eq.b) * S))) =
      eq.b ^ 2 / (eq.a * S ^ 2) * ((S - u) * (eq.a * eq.c / eq.b ^ 2 * (S + u) - 1) +
        (eq.a * eq.c / eq.b ^ 2 * u ^ 2 - u + 1)) := by
  rw [residual]
  field_simp
  ring

lemma bracket_bound {A S u : ℚ} (hA : |A| ≤ 1 / 4) (hS34 : 3 / 4 ≤ S) (hS2 : S ≤ 2)
    (hu0 : 0 < u) (hu2 : u ≤ 2) (hE : |A * u ^ 2 - u + 1| ≤ ZERO_THRESHOLD) :
    |(S - u) * (A * (S + u) - 1) + (A * u ^ 2 - u + 1)| ≤
      2 * |S - u| + ZERO_THRESHOLD := by
  have h1 : |(S - u) * (A * (S + u) - 1) + (A * u ^ 2 - u + 1)| ≤
      |(S - u) * (A * (S + u) - 1)| + |A * u ^ 2 - u + 1| := abs_add _ _
  have h2 : |(S - u) * (A * (S + u) - 1)| = |S - u| * |A * (S + u) - 1| := abs_mul _ _
  have h3 : |A * (S + u) - 1| ≤ |A * (S + u)| + 1 := by
    calc |A * (S + u) - 1| ≤ |A * (S + u)| + |(1 : ℚ)| := abs_sub _ _
      _ = |A * (S + u)| + 1 := by rw [abs_one]
  have h4 : |A * (S + u)| ≤ 1 := by
    rw [abs_mul]
    have hsum : |S + u| ≤ 4 := by
      rw [abs_of_pos (by linarith)]
      linarith
    calc |A| * |S + u| ≤ (1 / 4) * 4 :=
        mul_le_mul hA hsum (abs_nonneg _) (by norm_num)
      _ = 1 := by norm_num
  have h5 : |A * (S + u) - 1| ≤ 2 := by linarith
  have h6 : |S - u| * |A * (S + u) - 1| ≤ |S - u| * 2 :=
    mul_le_mul_of_nonneg_left h5 (abs_nonneg _)
  calc |(S - u) * (A * (S + u) - 1) + (A * u ^ 2 - u + 1)|
      ≤ |S - u| * |A * (S + u) - 1| + |A * u ^ 2 - u + 1| := by rw [← h2]; exact h1
    _ ≤ |S - u| * 2 + ZERO_THRESHOLD := by linarith
    _ = 2 * |S - u| + ZERO_THRESHOLD := by ring

/-- The full quantitative description of a run of the series branch when the
abstract square root is exact on `1 - 4A`: the solver returns the series
record, and both roots have residuals bounded by coefficient-scaled multiples
of the reported error. -/
lemma solve_catalan_residuals (tol : ℚ) (sq : ℚ → ℚ) (eq : QuadraticEquation)
    (ha : ¬ is_zero eq.a) (hc : ¬ is_zero eq.c) (hb : ¬ is_zero eq.b)
    (hA : |eq.a * eq.c / eq.b ^ 2| ≤ CATALAN_THRESHOLD)
    (hs2 : sq (1 - 4 * (eq.a * eq.c / eq.b ^ 2)) ^ 2 = 1 - 4 * (eq.a * eq.c / eq.b ^ 2))
    (hs0 : 0 ≤ sq (1 - 4 * (eq.a * eq.c / eq.b ^ 2))) :
    ∃ u S T, compute_exact_u sq (eq.a * eq.c / eq.b ^ 2) = .ok u ∧
      compute_catalan_series tol (eq.a * eq.c / eq.b ^ 2) u = (S, T) ∧
      solve tol sq eq = .ok ⟨[-(eq.c / eq.b) * S, eq.c / (eq.a * (-(eq.c / eq.b) * S))],
        "Catalan series", some T, some |S - u|⟩ ∧
      |residual eq (-(eq.c / eq.b) * S)| ≤ |eq.c| * (2 * |S - u| + ZERO_THRESHOLD) ∧
      |residual eq (eq.c / (eq.a * (-(eq.c / eq.b) * S)))| ≤
        eq.b ^ 2 / |eq.a| * (4 * |S - u| + 2 * ZERO_THRESHOLD) := by
  obtain ⟨u, S, T, hu, hcs, hS34, hS2, hx1, hsol⟩ := solve_catalan_spec tol sq eq ha hc hb hA
  have hA4 : |eq.a * eq.c / eq.b ^ 2| ≤ 1 / 4 := by rwa [CATALAN_THRESHOLD_eq] at hA
  obtain ⟨hu0, hu2, hE⟩ := exact_u_props sq hA4 hs2 hs0 hu
  have hbr := bracket_bound hA4 hS34 hS2 hu0 hu2 hE
  have herr0 : (0 : ℚ) ≤ |S - u| := abs_nonneg _
  have hZT0 : (0 : ℚ) ≤ ZERO_THRESHOLD := by rw [ZERO_THRESHOLD]; norm_num
  have hSne : S ≠ 0 := by
    intro h0
    rw [h0] at hS34
    norm_num at hS34
  refine ⟨u, S, T, hu, hcs, hsol, ?_, ?_⟩
  · rw [residual_x1_eq eq S u (not_is_zero_ne hb), abs_mul]
    exact mul_le_mul_of_nonneg_left hbr (abs_nonneg _)
  · rw [residual_x2_eq eq S u (not_is_zero_ne ha) (not_is_zero_ne hb)
      (not_is_zero_ne hc) hSne, abs_mul]
    have habsq : |eq.b ^ 2 / (eq.a * S ^ 2)| = eq.b ^ 2 / (|eq.a| * S ^ 2) := by
      rw [abs_div, abs_mul, abs_of_nonneg (sq_nonneg eq.b), abs_of_nonneg (sq_nonneg S)]
    rw [habsq]
    have hS2pos : (9 : ℚ) / 16 ≤ S ^ 2 := by nlinarith [hS34]
    have hSsqpos : (0 : ℚ) < S ^ 2 := by nlinarith [hS34]
    have hapos : (0 : ℚ) < |eq.a| := abs_pos.mpr (not_is_zero_ne ha)
    have hb2nn : (0 : ℚ) ≤ eq.b ^ 2 := sq_nonneg _
    have hkey : |(S - u) * (eq.a * eq.c / eq.b ^ 2 * (S + u) - 1) +
        (eq.a * eq.c / eq.b ^ 2 * u ^ 2 - u + 1)| ≤
        (4 * |S - u| + 2 * ZERO_THRESHOLD) * S ^ 2 := by
      nlinarith [hbr, hS2pos, herr0, hZT0]
    calc eq.b ^ 2 / (|eq.a| * S ^ 2) *
          |(S - u) * (eq.a * eq.c / eq.b ^ 2 * (S + u) - 1) +
            (eq.a * eq.c / eq.b ^ 2 * u ^ 2 - u + 1)|
        ≤ eq.b ^ 2 / (|eq.a| * S ^ 2) * ((4 * |S - u| + 2 * ZERO_THRESHOLD) * S ^ 2) := by
          apply mul_le_mul_of_nonneg_left hkey
          positivity
      _ = eq.b ^ 2 / |eq.a| * (4 * |S - u| + 2 * ZERO_THRESHOLD) := by
          field_simp
          ring

end CatalanSolver

namespace CatalanSolver

/-- Claim C3: for every n ≥ 0, `catalan_number n` is the exact n-th Catalan
number `C(n) = (2n)!/((n+1)!·n!)` (stated through Mathlib's `catalan` and the
central binomial coefficient, whose division by `n+1` is exact), every
intermediate truncating division of the loop and the final division by `n+1`
are exact, and the values for n = 0..15 are
1,1,2,5,14,42,132,429,1430,4862,16796,58786,208012,742900,2674440,9694845. -/
theorem claim3_catalan_exact :
    (∀ n : ℕ, catalan_number n = catalan n ∧
      (n + 1) * catalan_number n = (2 * n).choose n ∧
      catalanDivisionsExact n = true) ∧
    (List.range 16).map catalan_number =
      [1, 1, 2, 5, 14, 42, 132, 429, 1430, 4862,
       16796, 58786, 208012, 742900, 2674440, 9694845] := by
  refine ⟨fun n => ⟨catalan_number_eq_catalan n, succ_mul_catalan_number n,
    catalanDivisionsExact_true n⟩, by decide⟩

/-- Claim C6, counterexample: on (a,b,c) = (1,2,2) with the default
configuration the method tag is not `Quadratic formula`, refuting the claim
as stated. -/
theorem claim6_counterexample :
    solveMethod DEFAULT_TOLERANCE (fun _ => 0) ⟨1, 2, 2⟩ ≠ "Quadratic formula" := by
  have hsol : solve DEFAULT_TOLERANCE (fun _ => 0) ⟨1, 2, 2⟩ =
      .ok ⟨[], "No real solutions", none, none⟩ := by
    norm_num [solve, solve_linear, solve_missing_c, solve_missing_b,
      solve_standard_formula, solve_catalan_method, compute_catalan_parameter,
      compute_exact_u, compute_catalan_series, pydiv, is_zero, ZERO_THRESHOLD,
      CATALAN_THRESHOLD, DEFAULT_TOLERANCE, MAX_TERMS, bind_ok, bind_err, pure_eq_ok,
      abs_of_nonneg, abs_of_nonpos]
  rw [solveMethod_eq hsol]
  decide

/-- Claim C6 (amended): on (a,b,c) = (1,2,2) with the default configuration
(A = 0.5 > 0.25, discriminant 4 - 8 = -4 < 0), `solve` returns the method tag
`No real solutions` and zero roots. -/
theorem claim6_amended :
    solve DEFAULT_TOLERANCE (fun _ => 0) ⟨1, 2, 2⟩ =
      .ok ⟨[], "No real solutions", none, none⟩ := by
  norm_num [solve, solve_linear, solve_missing_c, solve_missing_b,
    solve_standard_formula, solve_catalan_method, compute_catalan_parameter,
    compute_exact_u, compute_catalan_series, pydiv, is_zero, ZERO_THRESHOLD,
    CATALAN_THRESHOLD, DEFAULT_TOLERANCE, MAX_TERMS, bind_ok, bind_err, pure_eq_ok,
    abs_of_nonneg, abs_of_nonpos]

/-- Claim C7, counterexample: (a,b,c) = (0, 1e-16, 1) has `a ≈ 0` and `b ≠ 0`,
yet `solve` returns zero roots with tag `No solution` (because `|b|` is below
`ZERO_THRESHOLD`), refuting the claim as stated. -/
theorem claim7_counterexample :
    is_zero (0 : ℚ) ∧ (1 / 10 ^ 16 : ℚ) ≠ 0 ∧
    solveMethod DEFAULT_TOLERANCE (fun _ => 0) ⟨0, 1 / 10 ^ 16, 1⟩ ≠ "Linear" ∧
    solveRoots DEFAULT_TOLERANCE (fun _ => 0) ⟨0, 1 / 10 ^ 16, 1⟩ = [] := by
  have hsol : solve DEFAULT_TOLERANCE (fun _ => 0) ⟨0, 1 / 10 ^ 16, 1⟩ =
      .ok ⟨[], "No solution", none, none⟩ := by
    norm_num [solve, solve_linear, solve_missing_c, solve_missing_b, pydiv,
      is_zero, ZERO_THRESHOLD, bind_ok, bind_err, pure_eq_ok,
      abs_of_nonneg, abs_of_nonpos]
  refine ⟨by norm_num [is_zero, ZERO_THRESHOLD], by norm_num, ?_, ?_⟩
  · rw [solveMethod_eq hsol]
    decide
  · rw [solveRoots_eq hsol]

/-- Claim C7 (amended): for every equation with `|a| < ZERO_THRESHOLD` and
`|b| ≥ ZERO_THRESHOLD` (not merely `b ≠ 0`), `solve` returns exactly one root,
equal to `-c/b` (exactly, in this rational model), with method tag `Linear`. -/
theorem claim7_amended (tol : ℚ) (sq : ℚ → ℚ) (eq : QuadraticEquation)
    (ha : is_zero eq.a) (hb : ¬ is_zero eq.b) :
    solve tol sq eq = .ok ⟨[-eq.c / eq.b], "Linear", none, none⟩ := by
  rw [solve, if_pos ha, solve_linear, if_neg hb, pydiv_ok _ (not_is_zero_ne hb),
    bind_ok, pure_eq_ok]

/-- Claim C7, witness: at (a,b,c) = (0,3,-6) the solver returns the single
root 2 = -(-6)/3 with tag `Linear`. -/
theorem claim7_witness :
    solve DEFAULT_TOLERANCE (fun _ => 0) ⟨0, 3, -6⟩ =
      .ok ⟨[-(-6 : ℚ) / 3], "Linear", none, none⟩ :=
  claim7_amended DEFAULT_TOLERANCE (fun _ => 0) ⟨0, 3, -6⟩
    (by norm_num [is_zero, ZERO_THRESHOLD])
    (by norm_num [is_zero, ZERO_THRESHOLD])

/-- Claim C9: for every equation (any rational coefficients, zeros included)
and every configuration, `solve` never lets an exception escape: it always
returns a `Solution` record (the internal `ValueError` being caught and the
Vieta division never hitting a zero denominator). -/
theorem claim9_no_exception (tol : ℚ) (sq : ℚ → ℚ) (eq : QuadraticEquation) :
    solveReturns tol sq eq = true ∧ ∃ s, solve tol sq eq = .ok s := by
  obtain ⟨s, hs⟩ := solve_isOk tol sq eq
  refine ⟨?_, s, hs⟩
  unfold solveReturns
  rw [hs]

/-- Claim C10: for every record returned by `solve`, the optional fields
`terms_used` and `error` are populated exactly when the method tag is
`Catalan series`; in every other branch both are `none`, and in the series
branch both are populated together. -/
theorem claim10_optional_fields (tol : ℚ) (sq : ℚ → ℚ) (eq : QuadraticEquation)
    (s : Solution) (hok : solve tol sq eq = .ok s) :
    (s.terms_used.isSome = true ↔ s.method_used = "Catalan series") ∧
    (s.error.isSome = true ↔ s.method_used = "Catalan series") := by
  rcases solve_ok_cases tol sq eq s hok with ⟨u, S, T, _, _, hm, hT, hE⟩ | ⟨hne, hT, hE⟩
  · rw [hm, hT, hE]
    simp
  · rw [hT, hE]
    simp [hne]

/-- Claim C10, witness: at (1,2,2) the record is `No real solutions` and both
optional fields are `none`, as the equivalences require. -/
theorem claim10_witness :
    ((none : Option ℕ).isSome = true ↔ ("No real solutions" : String) = "Catalan series") ∧
    ((none : Option ℚ).isSome = true ↔ ("No real solutions" : String) = "Catalan series") :=
  claim10_optional_fields DEFAULT_TOLERANCE (fun _ => 0) ⟨1, 2, 2⟩
    ⟨[], "No real solutions", none, none⟩
    (by norm_num [solve, solve_linear, solve_missing_c, solve_missing_b,
      solve_standard_formula, solve_catalan_method, compute_catalan_parameter,
      compute_exact_u, compute_catalan_series, pydiv, is_zero, ZERO_THRESHOLD,
      CATALAN_THRESHOLD, DEFAULT_TOLERANCE, MAX_TERMS, bind_ok, bind_err, pure_eq_ok,
      abs_of_nonneg, abs_of_nonpos])

end CatalanSolver

namespace CatalanSolver

/-- Claim C1, counterexample: (a,b,c) = (1,5,0) has A = ac/b² = 0 with
|A| ≤ 0.25, yet `solve` dispatches to the c ≈ 0 branch and tags the result
`Factorization (c=0)`, not `Catalan series`. -/
theorem claim1_counterexample :
    |(1 : ℚ) * 0 / 5 ^ 2| ≤ CATALAN_THRESHOLD ∧
    solveMethod DEFAULT_TOLERANCE (fun _ => 0) ⟨1, 5, 0⟩ ≠ "Catalan series" := by
  have hsol : solve DEFAULT_TOLERANCE (fun _ => 0) ⟨1, 5, 0⟩ =
      .ok ⟨[0, -5], "Factorization (c=0)", none, none⟩ := by
    norm_num [solve, solve_linear, solve_missing_c, solve_missing_b, pydiv,
      is_zero, ZERO_THRESHOLD, bind_ok, bind_err, pure_eq_ok,
      abs_of_nonneg, abs_of_nonpos]
  constructor
  · rw [CATALAN_THRESHOLD_eq]
    norm_num
  · rw [solveMethod_eq hsol]
    decide

/-- Claim C1 (amended): for every equation whose three coefficients are all
non-negligible (absolute value at least `ZERO_THRESHOLD`) and whose parameter
A = ac/b² satisfies |A| ≤ 0.25, `solve` returns the method tag
`Catalan series`. -/
theorem claim1_amended (tol : ℚ) (sq : ℚ → ℚ) (eq : QuadraticEquation)
    (ha : ¬ is_zero eq.a) (hc : ¬ is_zero eq.c) (hb : ¬ is_zero eq.b)
    (hA : |eq.a * eq.c / eq.b ^ 2| ≤ CATALAN_THRESHOLD) :
    solveMethod tol sq eq = "Catalan series" := by
  obtain ⟨u, S, T, _, _, _, _, _, hsol⟩ := solve_catalan_spec tol sq eq ha hc hb hA
  rw [solveMethod_eq hsol]

/-- Claim C1, witness: at (a,b,c) = (3,4,1), where A = 3/16, the method tag
is `Catalan series`. -/
theorem claim1_witness :
    solveMethod DEFAULT_TOLERANCE (fun _ => 0) ⟨3, 4, 1⟩ = "Catalan series" :=
  claim1_amended DEFAULT_TOLERANCE (fun _ => 0) ⟨3, 4, 1⟩
    (by norm_num [is_zero, ZERO_THRESHOLD])
    (by norm_num [is_zero, ZERO_THRESHOLD])
    (by norm_num [is_zero, ZERO_THRESHOLD])
    (by rw [CATALAN_THRESHOLD_eq]; norm_num [abs_of_nonneg])

/-- Claim C5, counterexample: (a,b,c) = (1e-16, 1, 1e20) has
A = ac/b² = 10000 with |A| > 0.25, yet `solve` treats a ≈ 0 first and returns
the tag `Linear`, which is neither `Quadratic formula` nor
`No real solutions`. -/
theorem claim5_counterexample :
    CATALAN_THRESHOLD < |(1 / 10 ^ 16 : ℚ) * 10 ^ 20 / 1 ^ 2| ∧
    solveMethod DEFAULT_TOLERANCE (fun _ => 0) ⟨1 / 10 ^ 16, 1, 10 ^ 20⟩ ≠
      "Quadratic formula" ∧
    solveMethod DEFAULT_TOLERANCE (fun _ => 0) ⟨1 / 10 ^ 16, 1, 10 ^ 20⟩ ≠
      "No real solutions" := by
  have hsol : solve DEFAULT_TOLERANCE (fun _ => 0) ⟨1 / 10 ^ 16, 1, 10 ^ 20⟩ =
      .ok ⟨[-(10 ^ 20 : ℚ)], "Linear", none, none⟩ := by
    norm_num [solve, solve_linear, solve_missing_c, solve_missing_b, pydiv,
      is_zero, ZERO_THRESHOLD, bind_ok, bind_err, pure_eq_ok,
      abs_of_nonneg, abs_of_nonpos]
  refine ⟨by rw [CATALAN_THRESHOLD_eq]; norm_num [abs_of_nonneg], ?_, ?_⟩
  · rw [solveMethod_eq hsol]
    decide
  · rw [solveMethod_eq hsol]
    decide

/-- Claim C5 (amended): for every equation whose three coefficients are all
non-negligible and whose parameter satisfies |A| > 0.25, `solve` returns the
standard-formula outcome: tag `No real solutions` with no roots when the
discriminant b² - 4ac is negative, else tag `Quadratic formula` with the two
roots (-b ± √(b²-4ac))/(2a). -/
theorem claim5_amended (tol : ℚ) (sq : ℚ → ℚ) (eq : QuadraticEquation)
    (ha : ¬ is_zero eq.a) (hc : ¬ is_zero eq.c) (hb : ¬ is_zero eq.b)
    (hA : CATALAN_THRESHOLD < |eq.a * eq.c / eq.b ^ 2|) :
    solve tol sq eq = .ok (if eq.b ^ 2 - 4 * eq.a * eq.c < 0 then
      ⟨[], "No real solutions", none, none⟩
    else
      ⟨[(-eq.b + sq (eq.b ^ 2 - 4 * eq.a * eq.c)) / (2 * eq.a),
        (-eq.b - sq (eq.b ^ 2 - 4 * eq.a * eq.c)) / (2 * eq.a)],
        "Quadratic formula", none, none⟩) := by
  have hb2 : eq.b ^ 2 ≠ 0 := pow_ne_zero _ (not_is_zero_ne hb)
  have ha2 : 2 * eq.a ≠ 0 := mul_ne_zero two_ne_zero (not_is_zero_ne ha)
  rw [solve, if_neg ha, if_neg hc, if_neg hb, compute_catalan_parameter, pydiv_ok _ hb2,
    bind_ok, if_neg (not_le.mpr hA)]
  by_cases hd : eq.b ^ 2 - 4 * eq.a * eq.c < 0
  · simp only [solve_standard_formula, if_pos hd]
  · simp only [solve_standard_formula, if_neg hd, pydiv_ok _ ha2, bind_ok, pure_eq_ok]

/-- Claim C5, witness: at (a,b,c) = (1,1,1), where A = 1 > 0.25 and the
discriminant is -3 < 0, the outcome is the `No real solutions` record. -/
theorem claim5_witness :
    solve DEFAULT_TOLERANCE (fun _ => 0) ⟨1, 1, 1⟩ =
      .ok (if (1 : ℚ) ^ 2 - 4 * 1 * 1 < 0 then
        ⟨[], "No real solutions", none, none⟩
      else
        ⟨[(-1 + (fun _ => (0 : ℚ)) ((1 : ℚ) ^ 2 - 4 * 1 * 1)) / (2 * 1),
          (-1 - (fun _ => (0 : ℚ)) ((1 : ℚ) ^ 2 - 4 * 1 * 1)) / (2 * 1)],
          "Quadratic formula", none, none⟩) :=
  claim5_amended DEFAULT_TOLERANCE (fun _ => 0) ⟨1, 1, 1⟩
    (by norm_num [is_zero, ZERO_THRESHOLD])
    (by norm_num [is_zero, ZERO_THRESHOLD])
    (by norm_num [is_zero, ZERO_THRESHOLD])
    (by rw [CATALAN_THRESHOLD_eq]; norm_num [abs_of_nonneg])

/-- Claim C4: whenever `solve` reports the tag `Catalan series` together with
an iteration count strictly below `MAX_TERMS` (= 100), the reported error is
strictly below the configured tolerance. -/
theorem claim4_convergence (tol : ℚ) (sq : ℚ → ℚ) (eq : QuadraticEquation)
    (hm : solveMethod tol sq eq = "Catalan series")
    (hlt : solveTerms tol sq eq < MAX_TERMS) :
    solveError tol sq eq < tol := by
  obtain ⟨s, hok⟩ := solve_isOk tol sq eq
  rw [solveMethod_eq hok] at hm
  rw [solveTerms_eq hok] at hlt
  rw [solveError_eq hok]
  rcases solve_ok_cases tol sq eq s hok with ⟨u, S, T, hu, hcs, _, hT, hE⟩ | ⟨hne, _, _⟩
  · rw [hT] at hlt
    rw [hE]
    simp only [Option.getD_some] at hlt ⊢
    have hconv := series_converged tol (eq.a * eq.c / eq.b ^ 2) u (by rw [hcs]; exact hlt)
    rw [hcs] at hconv
    simpa using hconv
  · exact absurd hm hne

/-- Claim C4, witness: at (a,b,c) = (199,200,1) with an oracle square root
that is exact on 1 - 4A = 9801/10000, the series converges in 6 terms and the
reported error is below the default tolerance. -/
theorem claim4_witness :
    solveError DEFAULT_TOLERANCE (fun q => if q = 9801 / 10000 then 99 / 100 else 0)
      ⟨199, 200, 1⟩ < DEFAULT_TOLERANCE := by
  have hsol : solve DEFAULT_TOLERANCE (fun q => if q = 9801 / 10000 then 99 / 100 else 0)
      ⟨199, 200, 1⟩ = .ok ⟨[-(51457286432056647900979 : ℚ) / 10240000000000000000000000,
        -(10240000000000000000000000 : ℚ) / 10239999999979272932294821],
        "Catalan series", some 6,
        some ((20727067705179 : ℚ) / 10188800000000000000000000)⟩ := by
    norm_num [solve, solve_linear, solve_missing_c, solve_missing_b,
      solve_standard_formula, solve_catalan_method, compute_catalan_parameter,
      compute_exact_u, compute_catalan_series, pydiv, is_zero, ZERO_THRESHOLD,
      CATALAN_THRESHOLD, DEFAULT_TOLERANCE, MAX_TERMS, bind_ok, bind_err, pure_eq_ok,
      seriesGo_stop, seriesGo_step, cn0, cn1, cn2, cn3, cn4, cn5, cn6, cn7,
      abs_of_nonneg, abs_of_nonpos]
  exact claim4_convergence DEFAULT_TOLERANCE _ ⟨199, 200, 1⟩
    (by rw [solveMethod_eq hsol])
    (by rw [solveTerms_eq hsol]; norm_num [MAX_TERMS])

/-- Claim C8: in the series branch (all coefficients non-negligible,
|A| ≤ 0.25) the partial sum returned by the series loop is at least 3/4 — in
particular nonzero — for any reference value and tolerance, so the first root
-(c/b)·S is nonzero and the Vieta division for the second root never divides
by zero: `solve` completes with the `Catalan series` record. -/
theorem claim8_series_nonzero (tol tol2 : ℚ) (sq : ℚ → ℚ) (eq : QuadraticEquation)
    (u : ℚ) (ha : ¬ is_zero eq.a) (hc : ¬ is_zero eq.c) (hb : ¬ is_zero eq.b)
    (hA : |eq.a * eq.c / eq.b ^ 2| ≤ CATALAN_THRESHOLD) :
    3 / 4 ≤ (compute_catalan_series tol2 (eq.a * eq.c / eq.b ^ 2) u).1 ∧
    -(eq.c / eq.b) * (compute_catalan_series tol2 (eq.a * eq.c / eq.b ^ 2) u).1 ≠ 0 ∧
    solveMethod tol sq eq = "Catalan series" := by
  have hA4 : |eq.a * eq.c / eq.b ^ 2| ≤ 1 / 4 := by rwa [CATALAN_THRESHOLD_eq] at hA
  have hS := series_fst_ge_three_quarters hA4 tol2 u
  refine ⟨hS, ?_, ?_⟩
  · apply mul_ne_zero
    · exact neg_ne_zero.mpr (div_ne_zero (not_is_zero_ne hc) (not_is_zero_ne hb))
    · intro h0
      rw [h0] at hS
      norm_num at hS
  · obtain ⟨u', S, T, _, _, _, _, _, hsol⟩ := solve_catalan_spec tol sq eq ha hc hb hA
    rw [solveMethod_eq hsol]

/-- Claim C8, witness: instantiation at (a,b,c) = (3,4,1) with reference
value 7 and tolerance 1. -/
theorem claim8_witness :
    3 / 4 ≤ (compute_catalan_series 1 ((3 : ℚ) * 1 / 4 ^ 2) 7).1 ∧
    -((1 : ℚ) / 4) * (compute_catalan_series 1 ((3 : ℚ) * 1 / 4 ^ 2) 7).1 ≠ 0 ∧
    solveMethod DEFAULT_TOLERANCE (fun _ => 0) ⟨3, 4, 1⟩ = "Catalan series" :=
  claim8_series_nonzero DEFAULT_TOLERANCE 1 (fun _ => 0) ⟨3, 4, 1⟩ 7
    (by norm_num [is_zero, ZERO_THRESHOLD])
    (by norm_num [is_zero, ZERO_THRESHOLD])
    (by norm_num [is_zero, ZERO_THRESHOLD])
    (by rw [CATALAN_THRESHOLD_eq]; norm_num [abs_of_nonneg])

end CatalanSolver

namespace CatalanSolver

/-- Claim C2, counterexample: on the scaled equation
(a,b,c) = (199e6, 2e8, 1e6) (A = 199/40000, series branch, exact oracle
square root) the first returned root has residual about 2e-6, far above 1e-8,
refuting the absolute residual bound as stated. -/
theorem claim2_counterexample :
    solveMethod DEFAULT_TOLERANCE (fun q => if q = 9801 / 10000 then 99 / 100 else 0)
      ⟨199000000, 200000000, 1000000⟩ = "Catalan series" ∧
    1 / 10 ^ 8 < |residual ⟨199000000, 200000000, 1000000⟩
      ((solveRoots DEFAULT_TOLERANCE (fun q => if q = 9801 / 10000 then 99 / 100 else 0)
        ⟨199000000, 200000000, 1000000⟩).getD 0 0)| := by
  have hsol : solve DEFAULT_TOLERANCE (fun q => if q = 9801 / 10000 then 99 / 100 else 0)
      ⟨199000000, 200000000, 1000000⟩ =
      .ok ⟨[-(51457286432056647900979 : ℚ) / 10240000000000000000000000,
        -(10240000000000000000000000 : ℚ) / 10239999999979272932294821],
        "Catalan series", some 6,
        some ((20727067705179 : ℚ) / 10188800000000000000000000)⟩ := by
    norm_num [solve, solve_linear, solve_missing_c, solve_missing_b,
      solve_standard_formula, solve_catalan_method, compute_catalan_parameter,
      compute_exact_u, compute_catalan_series, pydiv, is_zero, ZERO_THRESHOLD,
      CATALAN_THRESHOLD, DEFAULT_TOLERANCE, MAX_TERMS, bind_ok, bind_err, pure_eq_ok,
      seriesGo_stop, seriesGo_step, cn0, cn1, cn2, cn3, cn4, cn5, cn6, cn7,
      abs_of_nonneg, abs_of_nonpos]
  constructor
  · rw [solveMethod_eq hsol]
  · rw [solveRoots_eq hsol]
    norm_num [residual, abs_of_nonneg, abs_of_nonpos]

/-- Claim C2 (amended): for every equation on which `solve` chooses the
series method (non-negligible coefficients, |A| ≤ 0.25), with the square root
exact on 1 - 4A, the residual of each returned root is bounded by a
coefficient-scaled multiple of the reported error rather than the absolute
constant 1e-8: |residual(x₁)| ≤ |c|·(2·err + ZERO_THRESHOLD) and
|residual(x₂)| ≤ (b²/|a|)·(4·err + 2·ZERO_THRESHOLD), where err is the
reported error |S - u|. -/
theorem claim2_amended (tol : ℚ) (sq : ℚ → ℚ) (eq : QuadraticEquation)
    (ha : ¬ is_zero eq.a) (hc : ¬ is_zero eq.c) (hb : ¬ is_zero eq.b)
    (hA : |eq.a * eq.c / eq.b ^ 2| ≤ CATALAN_THRESHOLD)
    (hs2 : sq (1 - 4 * (eq.a * eq.c / eq.b ^ 2)) ^ 2 = 1 - 4 * (eq.a * eq.c / eq.b ^ 2))
    (hs0 : 0 ≤ sq (1 - 4 * (eq.a * eq.c / eq.b ^ 2))) :
    ∃ u S T, compute_exact_u sq (eq.a * eq.c / eq.b ^ 2) = .ok u ∧
      compute_catalan_series tol (eq.a * eq.c / eq.b ^ 2) u = (S, T) ∧
      solve tol sq eq = .ok ⟨[-(eq.c / eq.b) * S, eq.c / (eq.a * (-(eq.c / eq.b) * S))],
        "Catalan series", some T, some |S - u|⟩ ∧
      |residual eq (-(eq.c / eq.b) * S)| ≤ |eq.c| * (2 * |S - u| + ZERO_THRESHOLD) ∧
      |residual eq (eq.c / (eq.a * (-(eq.c / eq.b) * S)))| ≤
        eq.b ^ 2 / |eq.a| * (4 * |S - u| + 2 * ZERO_THRESHOLD) :=
  solve_catalan_residuals tol sq eq ha hc hb hA hs2 hs0

/-- Claim C2, witness: instantiation at (a,b,c) = (9,10,1) (A = 9/100) with
an oracle square root exact on 1 - 4A = 16/25. -/
theorem claim2_witness :
    ∃ u S T, compute_exact_u (fun q => if q = 16 / 25 then 4 / 5 else 0)
        ((9 : ℚ) * 1 / 10 ^ 2) = .ok u ∧
      compute_catalan_series DEFAULT_TOLERANCE ((9 : ℚ) * 1 / 10 ^ 2) u = (S, T) ∧
      solve DEFAULT_TOLERANCE (fun q => if q = 16 / 25 then 4 / 5 else 0) ⟨9, 10, 1⟩ =
        .ok ⟨[-((1 : ℚ) / 10) * S, 1 / (9 * (-((1 : ℚ) / 10) * S))],
          "Catalan series", some T, some |S - u|⟩ ∧
      |residual ⟨9, 10, 1⟩ (-((1 : ℚ) / 10) * S)| ≤
        |(1 : ℚ)| * (2 * |S - u| + ZERO_THRESHOLD) ∧
      |residual ⟨9, 10, 1⟩ ((1 : ℚ) / (9 * (-((1 : ℚ) / 10) * S)))| ≤
        (10 : ℚ) ^ 2 / |(9 : ℚ)| * (4 * |S - u| + 2 * ZERO_THRESHOLD) :=
  claim2_amended DEFAULT_TOLERANCE (fun q => if q = 16 / 25 then 4 / 5 else 0) ⟨9, 10, 1⟩
    (by norm_num [is_zero, ZERO_THRESHOLD])
    (by norm_num [is_zero, ZERO_THRESHOLD])
    (by norm_num [is_zero, ZERO_THRESHOLD])
    (by rw [CATALAN_THRESHOLD_eq]; norm_num [abs_of_nonneg])
    (by norm_num)
    (by norm_num)

end CatalanSolver
